import Mathlib

/-!
Verification development for the mail-smtp submission client.

The development shallowly embeds the two crates of the repository:

* the batch-sending crate (files `smtp/src/resolve_all.rs`, `smtp/src/request.rs`,
  `smtp/src/send_mail.rs`, `smtp/src/error.rs`), and
* the persistent-service crate (files `src/smtp_wrapper.rs`, `src/service.rs`,
  `src/handle.rs`, `src/common.rs`, `src/error.rs`, `src/stop_handle.rs`).

External collaborators (the wire-level SMTP library, the mail-encoding library,
the byte transport) are modelled as abstract tokens and oracle functions; the
control flow of the repository's own functions is translated statement by
statement.

Futures (the crates use futures 0.1 style cooperative polling) are modelled as
a countdown: a `Fut` is a number of polls that return NotReady followed by a
final resolution, which is either an item or an error.  This captures exactly
the interface the embedded code consumes: `poll` returning NotReady, Ready or
Err, with the future never being polled again after completion.
-/

/-- Token for values of std::io::Error. -/
abbrev IoErr := Nat

/-- Token for values of new_tokio_smtp::error::LogicError (protocol rejections). -/
abbrev LogicErr := Nat

/-- Token for the connect error type (SmtpSetup::NotConnectingError resp.
new_tokio_smtp ConnectingFailed). -/
abbrev ConnErr := Nat

/-- Token for a header type mismatch (the error inside headers.get_single). -/
abbrev TypeErr := Nat

/-- Token for mail_internals EncodingError (failure of mailaddress_from_mailbox). -/
abbrev EncErr := Nat

/-- Wire bytes of an encoded mail body. -/
abbrev Bytes := List Nat

/-- A futures-0.1 style future: `delay` polls return NotReady, afterwards the
future resolves to `outcome` (item or error). -/
structure Fut (ε α : Type) where
  delay : Nat
  outcome : Except ε α

/-- Result of one `poll` call on a `Fut`. -/
inductive PollRes (ε α : Type) where
  | notReady
  | ready (a : α)
  | err (e : ε)
deriving DecidableEq

/-- Poll a future once: models `Future::poll` of futures 0.1. -/
def Fut.poll (f : Fut ε α) : Fut ε α × PollRes ε α :=
  match f.delay with
  | 0 =>
    (f, match f.outcome with
        | Except.ok a => PollRes.ready a
        | Except.error e => PollRes.err e)
  | Nat.succ n => ({ f with delay := n }, PollRes.notReady)

/-! ## smtp/src/resolve_all.rs -/

/-- Embeds `enum AltFuse<F: Future>` from smtp/src/resolve_all.rs. -/
inductive AltFuse (ε α : Type) where
  | future (f : Fut ε α)
  | resolved (r : Except ε α)

/-- Embeds `impl Future for AltFuse`: polling a resolved fuse replays Ready at
once; polling a live future fuses its item or error.  The Bool is true when the
poll returned `Async::Ready(())`. -/
def AltFuse.poll : AltFuse ε α → AltFuse ε α × Bool
  | AltFuse.resolved r => (AltFuse.resolved r, true)
  | AltFuse.future f =>
    match f.poll with
    | (f2, PollRes.notReady) => (AltFuse.future f2, false)
    | (_, PollRes.ready a) => (AltFuse.resolved (Except.ok a), true)
    | (_, PollRes.err e) => (AltFuse.resolved (Except.error e), true)

/-- Extracts the result of a fused operation (the `AltFuse::Resolved(res) => res`
arm of ResolveAll::poll; the `AltFuse::Future(_) => unreachable!()` arm is
`none`). -/
def AltFuse.resolvedResult : AltFuse ε α → Option (Except ε α)
  | AltFuse.resolved r => some r
  | AltFuse.future _ => none

/-- Embeds `struct ResolveAll<F>` from smtp/src/resolve_all.rs. -/
structure ResolveAll (ε α : Type) where
  all : List (AltFuse ε α)

/-- Embeds `impl Future for ResolveAll`: polls every fuse, stays NotReady while
any fuse is, otherwise drains `all` and yields the ordered result vector.
`none` models `Async::NotReady`, `some` models `Async::Ready`. -/
def ResolveAll.poll (s : ResolveAll ε α) : ResolveAll ε α × Option (List (Except ε α)) :=
  let polled := s.all.map AltFuse.poll
  if polled.any (fun p => !p.2) then
    ({ all := polled.map Prod.fst }, none)
  else
    ({ all := [] }, some ((polled.map Prod.fst).filterMap AltFuse.resolvedResult))

/-- Embeds `impl FromIterator for ResolveAll`. -/
def ResolveAll.fromFuts (fs : List (Fut ε α)) : ResolveAll ε α :=
  { all := fs.map AltFuse.future }

/-- Drive a ResolveAll for at most `n` rounds of polling, stopping at the first
Ready result (an executor loop). -/
def ResolveAll.pollN : ResolveAll ε α → Nat → ResolveAll ε α × Option (List (Except ε α))
  | s, 0 => (s, none)
  | s, Nat.succ n =>
    match s.poll with
    | (s2, none) => ResolveAll.pollN s2 n
    | (s2, some r) => (s2, some r)

/-- Proof helper: the shape of one fuse after `k` rounds of polling. -/
def fuseAfter (k : Nat) (f : Fut ε α) : AltFuse ε α :=
  if k ≤ f.delay then AltFuse.future { delay := f.delay - k, outcome := f.outcome }
  else AltFuse.resolved f.outcome

/-! ## smtp/src/request.rs -/

/-- A mailbox from a mail header (headers::header_components::Mailbox); only the
email address part is relevant to envelope derivation. -/
structure Mailbox where
  localPart : String
  domain : String
deriving DecidableEq

/-- new_tokio_smtp::send_mail::MailAddress as produced by
`mailaddress_from_mailbox`. -/
structure MailAddress where
  address : String
  needsSmtputf8 : Bool
deriving DecidableEq

/-- vec1::Vec1, a non-empty vector. -/
structure Vec1 (α : Type) where
  head : α
  tail : List α
deriving DecidableEq

/-- Vec1::len. -/
def Vec1.length (v : Vec1 α) : Nat := 1 + v.tail.length

/-- Vec1::first. -/
def Vec1.first (v : Vec1 α) : α := v.head

/-- Vec1::try_mapped_ref: maps a fallible function over every element,
short-circuiting on the first error. -/
def Vec1.tryMappedRef (v : Vec1 α) (f : α → Except ε β) : Except ε (Vec1 β) := do
  let h ← f v.head
  let t ← v.tail.mapM f
  Except.ok { head := h, tail := t }

/-- The three header fields `derive_envelop_data_from_mail` consults.  Each
`headers.get_single(H)` call yields `Option (Except TypeErr value)` exactly as
in the source (`None` = header absent, `Some(Err)` = type mismatch). -/
structure Headers where
  sender : Option (Except TypeErr Mailbox)
  fromH : Option (Except TypeErr (Vec1 Mailbox))
  toH : Option (Except TypeErr (Vec1 Mailbox))

/-- The error cases of mail::error::MailError reachable from the embedded code:
the three validation errors raised by `derive_envelop_data_from_mail`, the
propagated header type error and address-encoding error, and a token covering
every other mail error (composition and body-encoding failures of the external
mail crate). -/
inductive MailError where
  | typeError (e : TypeErr)
  | encoding (e : EncErr)
  | noFrom
  | multiMailboxFromWithoutSender
  | noTo
  | otherMailError (code : Nat)
deriving DecidableEq

/-- new_tokio_smtp::send_mail::EnvelopData (the struct returned by
`derive_envelop_data_from_mail`); field names from/to are renamed envFrom/envTo
because `from` is a Lean keyword. -/
structure SmtpEnvelopData where
  envFrom : Option MailAddress
  envTo : Vec1 MailAddress
deriving DecidableEq

/-- Embeds `derive_envelop_data_from_mail` from smtp/src/request.rs.  The
conversion `mailaddress_from_mailbox` renders an address through the external
encoder, so it is passed as the oracle `conv`. -/
def derive_envelop_data_from_mail (conv : Mailbox → Except EncErr MailAddress)
    (headers : Headers) : Except MailError SmtpEnvelopData := do
  let smtp_from ←
    match headers.sender with
    | some sres =>
      match sres with
      | Except.error t => Except.error (MailError.typeError t)
      | Except.ok sender =>
        match conv sender with
        | Except.error e => Except.error (MailError.encoding e)
        | Except.ok a => Except.ok a
    | none =>
      match headers.fromH with
      | none => Except.error MailError.noFrom
      | some fres =>
        match fres with
        | Except.error t => Except.error (MailError.typeError t)
        | Except.ok fromList =>
          if fromList.length > 1 then
            Except.error MailError.multiMailboxFromWithoutSender
          else
            match conv fromList.first with
            | Except.error e => Except.error (MailError.encoding e)
            | Except.ok a => Except.ok a
  let smtp_to ←
    match headers.toH with
    | some tres =>
      match tres with
      | Except.error t => Except.error (MailError.typeError t)
      | Except.ok toList =>
        toList.tryMappedRef (fun mb => (conv mb).mapError MailError.encoding)
    | none => Except.error MailError.noTo
  Except.ok { envFrom := some smtp_from, envTo := smtp_to }

/-! ## Error types (smtp/src/error.rs and src/error.rs, src/handle.rs)

The two crates both name their per-request error `MailSendError`.  The service
crate's enum as written in src/error.rs lists only `Mail` and `Smtp`, but the
service code constructs `MailSendError::Io` (src/smtp_wrapper.rs),
`MailSendError::DriverDropped` and `MailSendError::CanceledByDriver`
(src/handle.rs), and the batch crate's enum adds `Connecting`; the embedding
therefore uses one enum with the union of the constructors that the sources
construct. -/

/-- Per-request send error (union of the constructors built by both crates). -/
inductive MailSendError where
  | mail (e : MailError)
  | smtp (e : LogicErr)
  | connecting (e : ConnErr)
  | io (e : IoErr)
  | canceledByDriver
  | driverDropped
deriving DecidableEq

/-- TransportError from smtp/src/error.rs. -/
inductive TransportError where
  | connecting (e : ConnErr)
  | io (e : IoErr)
deriving DecidableEq

/-! ## smtp/src/send_mail.rs and src/send_mail.rs (send_encoded_mails)

The wire-level connection object is external (new_tokio_smtp::Connection with
ConSendMailExt::send_mail).  It is modelled as an oracle: `behavior i` is the
server's reaction to the i-th mail sent over this connection (success, logic
level rejection carrying the index of the rejected command, or I/O error), and
`log` records every envelope actually handed to the connection. -/

/-- An encoded mail plus its envelope (new_tokio_smtp::send_mail::MailEnvelop),
kept as a token: its content is produced and consumed by external code. -/
abbrev MailEnvelop := Nat

/-- The wire connection of the batch path, with its send log. -/
structure SmtpConnection where
  behavior : Nat → Except IoErr (Option (Nat × LogicErr))
  sendCount : Nat
  log : List MailEnvelop

/-- Models `ConSendMailExt::send_mail`: hands the envelope to the connection
and resolves to `(connection, Result<(), (index, LogicError)>)`, or fails with
an I/O error that consumes the connection. -/
def SmtpConnection.sendMail (con : SmtpConnection) (env : MailEnvelop) :
    Except IoErr (SmtpConnection × Except (Nat × LogicErr) Unit) :=
  match con.behavior con.sendCount with
  | Except.error io =>
    Except.error io
  | Except.ok none =>
    Except.ok ({ con with sendCount := con.sendCount + 1, log := con.log ++ [env] },
               Except.ok ())
  | Except.ok (some r) =>
    Except.ok ({ con with sendCount := con.sendCount + 1, log := con.log ++ [env] },
               Except.error r)

/-- Result of encoding a mail (type EncodeMailResult in send_mail.rs). -/
abbrev EncodeMailResult := Except MailError MailEnvelop

/-- Result of sending an encoded mail (type SendMailResult in send_mail.rs). -/
abbrev SendMailResult := Except MailSendError Unit

/-- The loop body state of `send_encoded_mails`' `future::loop_fn`: iterator of
remaining mails, connection and results accumulator, translated to structural
recursion on the iterator.  Awaiting `con.send_mail` is sequential in the
source loop, so the future is resolved in place. -/
def sendEncodedGo (con : SmtpConnection) (iter : List EncodeMailResult)
    (results : List SendMailResult) :
    Except (TransportError × List SendMailResult × List EncodeMailResult)
           (SmtpConnection × List SendMailResult) :=
  match iter with
  | [] => Except.ok (con, results)
  | Except.error err :: rest =>
    sendEncodedGo con rest (results ++ [Except.error (MailSendError.mail err)])
  | Except.ok envelop :: rest =>
    match con.sendMail envelop with
    | Except.ok (con2, logicResult) =>
      sendEncodedGo con2 rest
        (results ++ [logicResult.mapError (fun p => MailSendError.smtp p.2)])
    | Except.error e =>
      Except.error (TransportError.io e, results, rest)

/-- Embeds `send_encoded_mails` from src/send_mail.rs (identical in
smtp/src/send_mail.rs as the loop inside connect_send_quit usage): sends all
encoded mails through the given connection. -/
def send_encoded_mails (con : SmtpConnection) (mails : List EncodeMailResult) :
    Except (TransportError × List SendMailResult × List EncodeMailResult)
           (SmtpConnection × List SendMailResult) :=
  sendEncodedGo con mails []

/-- The envelopes of the successfully encoded mails of a batch, in order. -/
def okEnvelops (mails : List EncodeMailResult) : List MailEnvelop :=
  mails.filterMap (fun r => match r with
    | Except.ok env => some env
    | Except.error _ => none)

/-- The send result the connection oracle produces for the k-th send issued
after the current position of `con`. -/
def sendOutcomeAt (con : SmtpConnection) (k : Nat) : SendMailResult :=
  match con.behavior (con.sendCount + k) with
  | Except.ok none => Except.ok ()
  | Except.ok (some p) => Except.error (MailSendError.smtp p.2)
  | Except.error e => Except.error (MailSendError.io e)

/-! ## src/common.rs (service data types) -/

/--`MailResponse`, the zero-sized success marker. -/
structure MailResponse where
deriving DecidableEq

/-- The email address inside `mailbox2smtp_mailbox` (emailaddress::EmailAddress). -/
structure EmailAddress where
  localPart : String
  domain : String
deriving DecidableEq

/-- SmtpMailbox of new-tokio-smtp: possibly-empty reverse path. -/
abbrev SmtpMailbox := Option EmailAddress

/-- `EnvelopData` of src/common.rs: one smtp sender and a non-empty recipient
list; field names from/to are renamed envFrom/envTo because `from` is a Lean
keyword. -/
structure EnvelopData where
  envFrom : SmtpMailbox
  envTo : Vec1 SmtpMailbox
deriving DecidableEq

/-- `MailSendResult` of src/common.rs. -/
abbrev MailSendResult := Except MailSendError MailResponse

/-! ## src/smtp_wrapper.rs

The wire connection of the service (new_tokio_smtp::Connection) is external; it
is modelled as a script: `sendScript i` gives, for the i-th mail sent over this
connection, the delay of the send future and the network's reaction (success,
logic-level rejection, or I/O error), and `quitDelay` is the number of polls
the QUIT of this connection takes.  The source's `Closing` branch of
`poll_state_completion` matches only the success arms of the quit future, so
quit is modelled as always eventually succeeding (a plain countdown). -/

/-- The wire connection owned by the service driver. -/
structure Connection where
  sendScript : Nat → Nat × Except IoErr (Option LogicErr)
  sendCount : Nat
  quitDelay : Nat

/-- Embeds the free function `send_mail` of src/smtp_wrapper.rs: builds the
MAIL/RCPT command chain for the envelope and returns the future resolving to
`(Connection, Result<MailResponse, MailSendError>)`; a chain I/O failure makes
the future itself error with `MailSendError::Io`, a logic-level rejection is
carried inside the item as `MailSendError::Smtp`.  The command chain itself is
external wire traffic, so only the script reaction is visible here. -/
def sendMailFut (con : Connection) (_body_bytes : Bytes) (_envelop : EnvelopData) :
    Fut MailSendError (Connection × MailSendResult) :=
  let spec := con.sendScript con.sendCount
  let con2 : Connection := { con with sendCount := con.sendCount + 1 }
  { delay := spec.1,
    outcome :=
      match spec.2 with
      | Except.error ioe => Except.error (MailSendError.io ioe)
      | Except.ok none => Except.ok (con2, Except.ok MailResponse.mk)
      | Except.ok (some le) => Except.ok (con2, Except.error (MailSendError.smtp le)) }

/-- Embeds `enum ConnectionState<F>` of src/smtp_wrapper.rs, instantiated at
the future types the service uses.  The `Closing` future (a boxed quit future)
is its remaining poll count, see above. -/
inductive ConnectionState where
  | Idle
  | Connecting (fut : Fut ConnErr Connection)
  | Connected (con : Connection)
  | ConnectionInUse (fut : Fut MailSendError (Connection × MailSendResult))
  | Closing (quitRemaining : Nat) (is_termination : Bool)
  | Terminated
  | Poison

/-- Embeds `enum CompletionState` of src/smtp_wrapper.rs. -/
inductive CompletionState where
  | usable (r : Option MailSendResult)
  | idle
  | terminated

/-- The result of one `poll_state_completion` call: Poll<CompletionState,
Either<io Error (as MailSendError), F::Error>> plus the poisoned-state panic. -/
inductive PollSCResult where
  | notReady
  | ready (c : CompletionState)
  | err (e : Sum MailSendError ConnErr)
  | panicked

/-- Quit delay of the future built in the `Connecting` arm of `_close_con`:
`fut.and_then(|con| con.quit())` (connect first, then quit the resulting
connection). -/
def chainQuitDelay (fut : Fut ConnErr Connection) : Nat :=
  fut.delay + (match fut.outcome with
    | Except.ok c => c.quitDelay
    | Except.error _ => 0)

/-- Embeds `ConnectionState::poll_state_completion`. -/
def ConnectionState.poll_state_completion :
    ConnectionState → ConnectionState × PollSCResult
  | ConnectionState.Idle =>
    (ConnectionState.Idle, PollSCResult.ready CompletionState.idle)
  | ConnectionState.Connected con =>
    (ConnectionState.Connected con,
     PollSCResult.ready (CompletionState.usable none))
  | ConnectionState.Connecting fut =>
    (match fut.poll with
     | (f2, PollRes.notReady) => (ConnectionState.Connecting f2, PollSCResult.notReady)
     | (_, PollRes.ready con) =>
       (ConnectionState.Connected con,
        PollSCResult.ready (CompletionState.usable none))
     | (_, PollRes.err e) => (ConnectionState.Terminated, PollSCResult.err (Sum.inr e)))
  | ConnectionState.ConnectionInUse fut =>
    (match fut.poll with
     | (f2, PollRes.notReady) =>
       (ConnectionState.ConnectionInUse f2, PollSCResult.notReady)
     | (_, PollRes.ready (con, result)) =>
       (ConnectionState.Connected con,
        PollSCResult.ready (CompletionState.usable (some result)))
     | (_, PollRes.err e) => (ConnectionState.Terminated, PollSCResult.err (Sum.inl e)))
  | ConnectionState.Closing q t =>
    (match q with
     | 0 =>
       if t then (ConnectionState.Terminated, PollSCResult.ready CompletionState.terminated)
       else (ConnectionState.Idle, PollSCResult.ready CompletionState.idle)
     | Nat.succ n => (ConnectionState.Closing n t, PollSCResult.notReady))
  | ConnectionState.Terminated =>
    (ConnectionState.Terminated, PollSCResult.ready CompletionState.terminated)
  | ConnectionState.Poison => (ConnectionState.Poison, PollSCResult.panicked)

/-- Embeds `ConnectionState::change_into_connecting`; the Bool is true when the
old state was the poison marker, which panics in the source. -/
def ConnectionState.change_into_connecting (s : ConnectionState)
    (con_fut : Fut ConnErr Connection) : ConnectionState × Bool :=
  match s with
  | ConnectionState.Poison => (ConnectionState.Connecting con_fut, true)
  | _ => (ConnectionState.Connecting con_fut, false)

/-- Result of a `ConnectionState::send_mail` call: Ok(()), the
Err((body_bytes, envelop)) rejection, or the poisoned-state panic. -/
inductive SendCallResult where
  | ok
  | rejected (body_bytes : Bytes) (envelop : EnvelopData)
  | panicked
deriving DecidableEq

/-- Embeds `ConnectionState::send_mail` (the method): only from `Connected`
does it start an in-use send future; every other non-poisoned state is left
unchanged and gets the body bytes and envelope handed back. -/
def ConnectionState.send_mail (s : ConnectionState) (body_bytes : Bytes)
    (envelop : EnvelopData) : ConnectionState × SendCallResult :=
  match s with
  | ConnectionState.Connected con =>
    (ConnectionState.ConnectionInUse (sendMailFut con body_bytes envelop),
     SendCallResult.ok)
  | ConnectionState.Poison => (ConnectionState.Poison, SendCallResult.panicked)
  | s => (s, SendCallResult.rejected body_bytes envelop)

/-- Result of a close/terminate call: Ok(()), the busy Err(()), or the
poisoned-state panic. -/
inductive CloseResult where
  | ok
  | busy
  | panicked
deriving DecidableEq

/-- Embeds `ConnectionState::_close_con`. -/
def ConnectionState._close_con (s : ConnectionState) (is_termination : Bool) :
    ConnectionState × CloseResult :=
  match s with
  | ConnectionState.Idle =>
    (if is_termination then ConnectionState.Terminated else ConnectionState.Idle,
     CloseResult.ok)
  | ConnectionState.Connecting fut =>
    (ConnectionState.Closing (chainQuitDelay fut) is_termination, CloseResult.ok)
  | ConnectionState.Connected con =>
    (ConnectionState.Closing con.quitDelay is_termination, CloseResult.ok)
  | ConnectionState.ConnectionInUse fut =>
    (ConnectionState.ConnectionInUse fut, CloseResult.busy)
  | ConnectionState.Closing q t =>
    (ConnectionState.Closing q (if is_termination then true else t), CloseResult.ok)
  | ConnectionState.Terminated => (ConnectionState.Terminated, CloseResult.ok)
  | ConnectionState.Poison => (ConnectionState.Poison, CloseResult.panicked)

/-- Embeds `ConnectionState::close_current`. -/
def ConnectionState.close_current (s : ConnectionState) : ConnectionState × CloseResult :=
  s._close_con false

/-- Embeds `ConnectionState::terminate`. -/
def ConnectionState.terminate (s : ConnectionState) : ConnectionState × CloseResult :=
  s._close_con true

/-- The public operations of the connection state machine, for stating
temporal properties over operation sequences. -/
inductive ConnOp where
  | pollSC
  | sendMailOp (body_bytes : Bytes) (envelop : EnvelopData)
  | closeCurrentOp
  | terminateOp

/-- Apply one public operation to the state machine, keeping the new state. -/
def applyConnOp (s : ConnectionState) : ConnOp → ConnectionState
  | ConnOp.pollSC => s.poll_state_completion.1
  | ConnOp.sendMailOp b e => (s.send_mail b e).1
  | ConnOp.closeCurrentOp => s.close_current.1
  | ConnOp.terminateOp => s.terminate.1

/-! ## src/service.rs and src/handle.rs (driver loop, reply slots)

Each submitted request owns a oneshot reply channel (src/handle.rs); the
sender half travels with the request through the encoding stream into the
driver.  Channels are identified by a fresh numeric slot id handed out at
submission.  Writing a slot is modelled by appending to a write log; dropping
a sender half without writing cancels the receiver, which the caller observes
as `MailSendError::CanceledByDriver` (MailResponseFuture::poll), so a drop is
logged as a `canceledByDriver` write.

The concurrent encoding stage (`stream_encode_mail`, whose source file is not
part of this tree; src/service.rs consumes it as `rx`) maps each queued
`(MailRequest, tx)` pair to an `(MailEncodingResult, tx)` pair, completing out
of submission order but keeping each result paired with its own reply sender.
The driver model therefore takes the already-encoded items as its queue
content. -/

/-- Identifier of one request's oneshot reply channel. -/
abbrev SlotId := Nat

/-- Item of the encoded-request stream `rx`: result of encoding one mail
(`MailEncodingResult` of src/encode.rs usage in src/service.rs: the body bytes
and envelope, or the per-request error). -/
abbrev MailEncodingResult := Except MailSendError (Bytes × EnvelopData)

/-- The state of `MailService` (src/service.rs) together with the reply-slot
write log. `rxQueue`/`rxClosed` model the peekable encoded-request stream:
poll yields the head, NotReady when empty and some sender may still submit,
and None when empty and closed. -/
structure MailServiceState where
  rxQueue : List (MailEncodingResult × SlotId)
  rxClosed : Bool
  connection : ConnectionState
  tx_of_pending : Option SlotId
  stopFlag : Bool
  slotWrites : List (SlotId × MailSendResult)
  nextId : Nat

/-- Result of one pass of the driver loop body. -/
inductive StepResult where
  | looped
  | notReady
  | stopped
  | errored
  | panicked
deriving DecidableEq

/-- The cancellation write produced if `self.tx_of_pending = Some(new_tx)`
overwrites (and thereby drops) a previous pending sender. In driver-reachable
states the overwritten value is always None. -/
def dropPendingWrites (s : MailServiceState) : List (SlotId × MailSendResult) :=
  match s.tx_of_pending with
  | some p => [(p, Except.error MailSendError.canceledByDriver)]
  | none => []

/-- Embeds `MailService::start_stopping_now`: set the stop flag, then
terminate the connection; the Bool is false when terminate returned an error
or panicked (callers `.expect` on it). -/
def startStoppingNow (s : MailServiceState) : MailServiceState × Bool :=
  let r := s.connection.terminate
  ({ s with stopFlag := true, connection := r.1 },
   match r.2 with
   | CloseResult.ok => true
   | _ => false)

/-- Embeds `MailService::poll_next_request` (steps 2 and 3 of the loop body):
pull the next encoded request; on stream end stop the service; hand a
successfully encoded mail to the connection and remember its reply sender;
write an encoding failure straight into the request's reply slot.  In the
panic branch (the `.expect` on a rejected send) the just-pulled reply sender
is dropped by the unwind, which its receiver observes as CanceledByDriver;
the drop is logged as that write. -/
def pollNextRequest (s : MailServiceState) : MailServiceState × StepResult :=
  match s.rxQueue with
  | [] =>
    if s.rxClosed then
      let r := startStoppingNow s
      (r.1, if r.2 then StepResult.looped else StepResult.panicked)
    else (s, StepResult.notReady)
  | (encResult, reqTx) :: rest =>
    let s1 := { s with rxQueue := rest }
    match encResult with
    | Except.ok (body, envelop) =>
      let r := s1.connection.send_mail body envelop
      match r.2 with
      | SendCallResult.ok =>
        ({ s1 with connection := r.1,
                   slotWrites := s1.slotWrites ++ dropPendingWrites s1,
                   tx_of_pending := some reqTx }, StepResult.looped)
      | _ =>
        ({ s1 with connection := r.1,
                   slotWrites := s1.slotWrites
                     ++ [(reqTx, Except.error MailSendError.canceledByDriver)] },
         StepResult.panicked)
    | Except.error err =>
      ({ s1 with slotWrites := s1.slotWrites ++ [(reqTx, Except.error err)] },
       StepResult.looped)

/-- One iteration of the loop body of `MailService::poll`, after the
connection has been polled: dispatch on the completion state.  `cf` is the
future `self.setup.connect()` would return if connecting starts now. -/
def serviceStepCore (cf : Fut ConnErr Connection) (s : MailServiceState) :
    PollSCResult → MailServiceState × StepResult
  | PollSCResult.notReady => (s, StepResult.notReady)
  | PollSCResult.panicked => (s, StepResult.panicked)
  | PollSCResult.err _ => (s, StepResult.errored)
  | PollSCResult.ready (CompletionState.usable optResult) =>
    (match optResult, s.tx_of_pending with
     | some mailResult, some txId =>
       pollNextRequest { s with tx_of_pending := none,
                                slotWrites := s.slotWrites ++ [(txId, mailResult)] }
     | some _, none => (s, StepResult.panicked)
     | none, _ => pollNextRequest s)
  | PollSCResult.ready CompletionState.idle =>
    (match s.rxQueue with
     | _ :: _ =>
       let r := s.connection.change_into_connecting cf
       ({ s with connection := r.1 },
        if r.2 then StepResult.panicked else StepResult.looped)
     | [] =>
       if s.rxClosed then
         let r := startStoppingNow s
         (r.1, if r.2 then StepResult.looped else StepResult.panicked)
       else (s, StepResult.notReady))
  | PollSCResult.ready CompletionState.terminated =>
    ({ s with stopFlag := true }, StepResult.stopped)

/-- One iteration of the loop in `MailService::poll`: poll the connection
state, then dispatch (steps 1 to 4 of the driver loop). -/
def serviceStep (cf : Fut ConnErr Connection) (s : MailServiceState) :
    MailServiceState × StepResult :=
  let p := s.connection.poll_state_completion
  serviceStepCore cf { s with connection := p.1 } p.2

/-- The events the service state reacts to: a successful submission through a
handle (the request arrives in the encoded queue paired with a fresh reply
slot), all handles being dropped (the mpsc stream closes), and one iteration
of the driver loop. -/
inductive ServiceEvent where
  | submit (r : MailEncodingResult)
  | closeHandles
  | step (cf : Fut ConnErr Connection)

/-- Apply one event.  A submission after the channel closed fails with
DriverDropped before a reply slot is handed out, so it leaves the state
unchanged. -/
def applyEvent (s : MailServiceState) : ServiceEvent → MailServiceState
  | ServiceEvent.submit r =>
    if s.rxClosed then s
    else { s with rxQueue := s.rxQueue ++ [(r, s.nextId)], nextId := s.nextId + 1 }
  | ServiceEvent.closeHandles => { s with rxClosed := true }
  | ServiceEvent.step cf => (serviceStep cf s).1

/-- The state `MailService::new` sets up. -/
def initService : MailServiceState :=
  { rxQueue := [], rxClosed := false, connection := ConnectionState.Idle,
    tx_of_pending := none, stopFlag := false, slotWrites := [], nextId := 0 }

/-- Run the service from its initial state through a sequence of events. -/
def runService (evs : List ServiceEvent) : MailServiceState :=
  evs.foldl applyEvent initService

/-- Dropping the service drops every reply sender still owned by it (queued
requests and the pending in-flight sender); each such receiver then observes
CanceledByDriver.  This is the final write log after the service is gone. -/
def finalize (s : MailServiceState) : List (SlotId × MailSendResult) :=
  s.slotWrites
    ++ s.rxQueue.map (fun it => (it.2, Except.error MailSendError.canceledByDriver))
    ++ (match s.tx_of_pending with
        | some p => [(p, Except.error MailSendError.canceledByDriver)]
        | none => [])

/-- The slot ids of a write log. -/
def idsOf (l : List (SlotId × MailSendResult)) : List SlotId := l.map Prod.fst

/-- The slot ids whose sender halves the service still owns. -/
def ownedIds (s : MailServiceState) : List SlotId :=
  s.rxQueue.map Prod.snd ++ s.tx_of_pending.toList

/-- Every slot id the service has ever seen: written ones and owned ones. -/
def trackedIds (s : MailServiceState) : List SlotId :=
  idsOf s.slotWrites ++ ownedIds s

/-- The reply-slot ownership invariant of the driver: every id below the
fresh-id counter is tracked exactly once (owned by exactly one sender half or
written exactly once), and no other id is tracked. -/
def ServiceInv (s : MailServiceState) : Prop :=
  ∀ id : SlotId, (trackedIds s).count id = if id < s.nextId then 1 else 0

/-! ## Concrete instances used by the witnesses -/

/-- A batch connection whose server accepts every mail. -/
def conAcceptAll : SmtpConnection :=
  { behavior := fun _ => Except.ok none, sendCount := 0, log := [] }

/-- A three-element batch: two good mails around one that failed encoding. -/
def mailsW3 : List EncodeMailResult :=
  [Except.ok 5, Except.error (MailError.otherMailError 3), Except.ok 7]

/-- A batch connection whose second send dies with an I/O error. -/
def conIoOnSecond : SmtpConnection :=
  { behavior := fun i => if i = 1 then Except.error 9 else Except.ok none,
    sendCount := 0, log := [] }

/-- A four-element batch whose second good mail will hit the I/O error. -/
def mailsW4 : List EncodeMailResult :=
  [Except.ok 5, Except.error (MailError.otherMailError 3), Except.ok 7, Except.ok 8]

/-- A service connection accepting every mail, with instant quit. -/
def svcConn : Connection :=
  { sendScript := fun _ => (0, Except.ok none), sendCount := 0, quitDelay := 0 }

/-- A connect future resolving at once to svcConn. -/
def svcConnectFut : Fut ConnErr Connection := { delay := 0, outcome := Except.ok svcConn }

/-- An in-flight send future that is about to succeed. -/
def futOkSend : Fut MailSendError (Connection × MailSendResult) :=
  { delay := 0, outcome := Except.ok (svcConn, Except.ok MailResponse.mk) }

/-- An envelope for witness states. -/
def envW : EnvelopData :=
  { envFrom := some { localPart := "a", domain := "b.test" },
    envTo := { head := some { localPart := "c", domain := "d.test" }, tail := [] } }

/-- A service state that is idle with an empty, closed queue and no stop
requested: the situation of the graceful drain. -/
def drainState : MailServiceState :=
  { rxQueue := [], rxClosed := true, connection := ConnectionState.Idle,
    tx_of_pending := none, stopFlag := false, slotWrites := [], nextId := 1 }

/-- Event trace for the C1 witness: one submission whose encoding failed, then
the handles drop and the driver runs three loop iterations. -/
def evsW : List ServiceEvent :=
  [ServiceEvent.submit (Except.error (MailSendError.mail (MailError.otherMailError 3))),
   ServiceEvent.closeHandles,
   ServiceEvent.step svcConnectFut,
   ServiceEvent.step svcConnectFut,
   ServiceEvent.step svcConnectFut]

/-! ## Theorems -/

theorem fuseAfter_zero (f : Fut ε α) : fuseAfter 0 f = AltFuse.future f := by
  simp [fuseAfter]

theorem altFuse_poll_fuseAfter (k : Nat) (f : Fut ε α) :
    (fuseAfter k f).poll = (fuseAfter (k + 1) f, decide (f.delay ≤ k)) := by
  by_cases h1 : k ≤ f.delay
  · by_cases h2 : k + 1 ≤ f.delay
    · have hd : f.delay - k = (f.delay - (k + 1)) + 1 := by omega
      have hh : ¬ f.delay ≤ k := by omega
      simp [fuseAfter, h1, h2, AltFuse.poll, Fut.poll, hd, hh]
    · have hk : f.delay = k := by omega
      have hd : f.delay - k = 0 := by omega
      have hh : f.delay ≤ k := by omega
      cases ho : f.outcome with
      | ok a => simp [fuseAfter, h1, h2, AltFuse.poll, Fut.poll, hd, hh, ho]
      | error e => simp [fuseAfter, h1, h2, AltFuse.poll, Fut.poll, hd, hh, ho]
  · have h2 : ¬ k + 1 ≤ f.delay := by omega
    have hh : f.delay ≤ k := by omega
    simp [fuseAfter, h1, h2, AltFuse.poll, hh]

theorem resolveAll_polled_map (fs : List (Fut ε α)) (k : Nat) :
    (fs.map (fuseAfter k)).map AltFuse.poll
      = fs.map (fun f => (fuseAfter (k + 1) f, decide (f.delay ≤ k))) := by
  rw [List.map_map]
  exact List.map_congr_left (fun f _ => altFuse_poll_fuseAfter k f)

theorem resolveAll_poll_not_done (fs : List (Fut ε α)) (k : Nat)
    (h : ∃ f ∈ fs, k < f.delay) :
    ResolveAll.poll { all := fs.map (fuseAfter k) }
      = ({ all := fs.map (fuseAfter (k + 1)) }, none) := by
  unfold ResolveAll.poll
  rw [resolveAll_polled_map]
  have hany : (fs.map (fun f => (fuseAfter (k + 1) f, decide (f.delay ≤ k)))).any
      (fun p => !p.2) = true := by
    rcases h with ⟨f, hf, hlt⟩
    rw [List.any_eq_true]
    refine ⟨(fuseAfter (k + 1) f, decide (f.delay ≤ k)), List.mem_map_of_mem _ hf, ?_⟩
    simp; omega
  simp [hany, List.map_map]

theorem filterMap_resolved (fs : List (Fut ε α)) (k : Nat)
    (h : ∀ f ∈ fs, f.delay ≤ k) :
    List.filterMap AltFuse.resolvedResult (fs.map (fuseAfter (k + 1)))
      = fs.map Fut.outcome := by
  induction fs with
  | nil => simp
  | cons f fs ih =>
    have hf : ¬ k + 1 ≤ f.delay := by
      have := h f (List.mem_cons_self f fs); omega
    simp only [List.map_cons, List.filterMap_cons]
    simp [fuseAfter, hf, AltFuse.resolvedResult,
      ih (fun g hg => h g (List.mem_cons_of_mem f hg))]

theorem resolveAll_poll_done (fs : List (Fut ε α)) (k : Nat)
    (h : ∀ f ∈ fs, f.delay ≤ k) :
    ResolveAll.poll { all := fs.map (fuseAfter k) }
      = ({ all := [] }, some (fs.map Fut.outcome)) := by
  unfold ResolveAll.poll
  rw [resolveAll_polled_map]
  have hany : (fs.map (fun f => (fuseAfter (k + 1) f, decide (f.delay ≤ k)))).any
      (fun p => !p.2) = false := by
    rw [List.any_eq_false]
    intro p hp
    rcases List.mem_map.mp hp with ⟨f, hf, rfl⟩
    simp [h f hf]
  simp only [hany, Bool.false_eq_true, if_false, List.map_map]
  have hcomp : (Prod.fst ∘ fun f : Fut ε α => (fuseAfter (k + 1) f, decide (f.delay ≤ k)))
      = fuseAfter (k + 1) := by
    funext f; rfl
  rw [hcomp, filterMap_resolved fs k h]

theorem pollN_fused_done (fs : List (Fut ε α)) (n k : Nat)
    (h : ∀ f ∈ fs, f.delay ≤ k + n) :
    ResolveAll.pollN { all := fs.map (fuseAfter k) } (n + 1)
      = ({ all := [] }, some (fs.map Fut.outcome)) := by
  induction n generalizing k with
  | zero =>
    simp only [ResolveAll.pollN, resolveAll_poll_done fs k (by simpa using h)]
  | succ n ih =>
    by_cases hall : ∀ f ∈ fs, f.delay ≤ k
    · simp only [ResolveAll.pollN, resolveAll_poll_done fs k hall]
    · push_neg at hall
      rcases hall with ⟨f, hf, hlt⟩
      simp only [ResolveAll.pollN, resolveAll_poll_not_done fs k ⟨f, hf, hlt⟩]
      exact ih (k + 1) (fun g hg => by have := h g hg; omega)

theorem pollN_some_spec (fs : List (Fut ε α)) (n k : Nat)
    (s : ResolveAll ε α) (res : List (Except ε α))
    (h : ResolveAll.pollN { all := fs.map (fuseAfter k) } n = (s, some res)) :
    res = fs.map Fut.outcome ∧ ∀ f ∈ fs, f.delay < k + n := by
  induction n generalizing k with
  | zero => simp [ResolveAll.pollN] at h
  | succ n ih =>
    by_cases hall : ∀ f ∈ fs, f.delay ≤ k
    · simp only [ResolveAll.pollN, resolveAll_poll_done fs k hall, Prod.mk.injEq,
        Option.some.injEq] at h
      exact ⟨h.2.symm, fun f hf => by have := hall f hf; omega⟩
    · push_neg at hall
      rcases hall with ⟨f, hf, hlt⟩
      simp only [ResolveAll.pollN, resolveAll_poll_not_done fs k ⟨f, hf, hlt⟩] at h
      rcases ih (k + 1) h with ⟨h1, h2⟩
      exact ⟨h1, fun g hg => by have := h2 g hg; omega⟩

theorem fromFuts_eq_fuseAfter (fs : List (Fut ε α)) :
    ResolveAll.fromFuts fs = { all := fs.map (fuseAfter 0) } := by
  unfold ResolveAll.fromFuts
  congr 1
  exact (List.map_congr_left (fun f _ => (fuseAfter_zero f).symm))

/-- C5: the fan-in combinator `ResolveAll` resolves only after every one of
its N input operations has individually completed, yields the vector of the N
per-operation results ordered by original input position, preserves every
success and failure verbatim, replays an already-completed operation as
resolved instead of re-polling it, and itself never resolves with an error
(its only resolution is the Ready result vector, reached whenever the executor
polls it often enough). -/
theorem c5_resolve_all_totality (ε α : Type) (fs : List (Fut ε α)) (n : Nat) :
    ((0 < n ∧ ∀ f ∈ fs, f.delay < n) →
        ResolveAll.pollN (ResolveAll.fromFuts fs) n
          = ({ all := [] }, some (fs.map Fut.outcome)))
  ∧ (∀ s res, ResolveAll.pollN (ResolveAll.fromFuts fs) n = (s, some res) →
        res = fs.map Fut.outcome ∧ res.length = fs.length ∧
        (∀ i : Nat, res[i]? = (fs[i]?).map Fut.outcome) ∧
        ∀ f ∈ fs, f.delay < n)
  ∧ (∀ r : Except ε α, AltFuse.poll (AltFuse.resolved r) = (AltFuse.resolved r, true)) := by
  refine ⟨?_, ?_, fun r => rfl⟩
  · rintro ⟨hn, hd⟩
    cases n with
    | zero => omega
    | succ m =>
      rw [fromFuts_eq_fuseAfter]
      exact pollN_fused_done fs m 0 (fun f hf => by have := hd f hf; omega)
  · intro s res h
    rw [fromFuts_eq_fuseAfter] at h
    rcases pollN_some_spec fs n 0 s res h with ⟨h1, h2⟩
    subst h1
    refine ⟨rfl, by simp, fun i => by simp [List.getElem?_map], fun f hf => by simpa using h2 f hf⟩

/-- Witness for C5 at a concrete two-element batch (one success, one failure). -/
theorem c5_resolve_all_totality_witness :
    (0 < 3 ∧ ∀ f ∈ [(⟨0, Except.ok 1⟩ : Fut Nat Nat), ⟨2, Except.error 5⟩], f.delay < 3) ∧
    ResolveAll.pollN
        (ResolveAll.fromFuts [(⟨0, Except.ok 1⟩ : Fut Nat Nat), ⟨2, Except.error 5⟩]) 3
      = ({ all := [] }, some [Except.ok 1, Except.error 5]) := by
  have hd : ∀ f ∈ [(⟨0, Except.ok 1⟩ : Fut Nat Nat), ⟨2, Except.error 5⟩], f.delay < 3 := by
    intro f hf
    rcases List.mem_cons.mp hf with rfl | hf
    · decide
    · rcases List.mem_cons.mp hf with rfl | hf
      · decide
      · simp at hf
  exact ⟨⟨by decide, hd⟩,
    (c5_resolve_all_totality Nat Nat [⟨0, Except.ok 1⟩, ⟨2, Except.error 5⟩] 3).1
      ⟨by decide, hd⟩⟩

theorem exceptBind_ok (a : α) (f : α → Except ε β) :
    (Except.ok a >>= f : Except ε β) = f a := rfl

theorem exceptBind_error (e : ε) (f : α → Except ε β) :
    (Except.error e >>= f : Except ε β) = Except.error e := rfl

theorem bind_ok_envFrom (X : Except MailError (Vec1 MailAddress)) (a : MailAddress)
    (env : SmtpEnvelopData)
    (hok : (X >>= fun smtp_to =>
        Except.ok { envFrom := some a, envTo := smtp_to }) = Except.ok env) :
    env.envFrom = some a := by
  cases X with
  | error e => simp [exceptBind_error] at hok
  | ok v =>
    rw [exceptBind_ok, Except.ok.injEq] at hok
    rw [← hok]

theorem except_bind_no_ok (X : Except ε α) (g : α → Except ε β)
    (hg : ∀ x, ∃ e, g x = Except.error e) (b : β) : (X >>= g) ≠ Except.ok b := by
  cases X with
  | error e => simp [exceptBind_error]
  | ok x =>
    rcases hg x with ⟨e, he⟩
    simp [exceptBind_ok, he]

/-- C2: envelope derivation from mail headers: with a Sender header present the
derived smtp sender is the (converted) Sender address regardless of how many
From addresses exist; without a Sender and with a single-element From, the
derived sender is that From address; without a Sender and with several From
addresses, derivation fails with the multi-mailbox-From error; without a To
header, derivation never succeeds. -/
theorem c2_envelope_derivation (conv : Mailbox → Except EncErr MailAddress)
    (headers : Headers) :
    (∀ s a env, headers.sender = some (Except.ok s) → conv s = Except.ok a →
        derive_envelop_data_from_mail conv headers = Except.ok env →
        env.envFrom = some a)
  ∧ (∀ m a env, headers.sender = none →
        headers.fromH = some (Except.ok { head := m, tail := [] }) →
        conv m = Except.ok a →
        derive_envelop_data_from_mail conv headers = Except.ok env →
        env.envFrom = some a)
  ∧ (∀ f, headers.sender = none → headers.fromH = some (Except.ok f) →
        f.length > 1 →
        derive_envelop_data_from_mail conv headers
          = Except.error MailError.multiMailboxFromWithoutSender)
  ∧ (headers.toH = none →
        ∀ env, derive_envelop_data_from_mail conv headers ≠ Except.ok env) := by
  refine ⟨?_, ?_, ?_, ?_⟩
  · intro s a env hs hc hok
    unfold derive_envelop_data_from_mail at hok
    simp only [hs, hc, exceptBind_ok] at hok
    rcases h3 : headers.toH with _ | tres
    · simp [h3, exceptBind_error] at hok
    · rcases tres with t | tl
      · simp [h3, exceptBind_error] at hok
      · simp only [h3] at hok
        exact bind_ok_envFrom _ a env hok
  · intro m a env hs hf hc hok
    unfold derive_envelop_data_from_mail at hok
    simp only [hs, hf, Vec1.length, Vec1.first, List.length_nil, exceptBind_ok] at hok
    simp only [show ¬ (1 + 0 > 1) by omega, if_false, hc, exceptBind_ok] at hok
    rcases h3 : headers.toH with _ | tres
    · simp [h3, exceptBind_error] at hok
    · rcases tres with t | tl
      · simp [h3, exceptBind_error] at hok
      · simp only [h3] at hok
        exact bind_ok_envFrom _ a env hok
  · intro f hs hf hlen
    unfold derive_envelop_data_from_mail
    simp [hs, hf, hlen, exceptBind_error]
  · intro hto env hok
    unfold derive_envelop_data_from_mail at hok
    rcases hs : headers.sender with _ | sres
    · rcases hf : headers.fromH with _ | fres
      · simp [hs, hf, hto, exceptBind_error] at hok
      · rcases fres with t | fl
        · simp [hs, hf, hto, exceptBind_error] at hok
        · by_cases hl : fl.length > 1
          · simp [hs, hf, hto, hl, exceptBind_error] at hok
          · rcases hcv : conv fl.first with e | a
            · simp [hs, hf, hto, hl, hcv, exceptBind_error] at hok
            · simp [hs, hf, hto, hl, hcv, exceptBind_ok, exceptBind_error] at hok
    · rcases sres with t | sm
      · simp [hs, hto, exceptBind_error] at hok
      · rcases hcv : conv sm with e | a
        · simp [hs, hto, hcv, exceptBind_error] at hok
        · simp [hs, hto, hcv, exceptBind_ok, exceptBind_error] at hok

/-- Witness for C2 at concrete headers: a Sender plus two From addresses, a
single From with no Sender, two From addresses with no Sender, and a missing
To header. -/
theorem c2_envelope_derivation_witness :
    (let conv := fun mb : Mailbox =>
        (Except.ok { address := mb.localPart ++ "@" ++ mb.domain, needsSmtputf8 := false }
          : Except EncErr MailAddress)
     let mbS : Mailbox := { localPart := "strange", domain := "caffe.test" }
     let mbA : Mailbox := { localPart := "ape", domain := "caffe.test" }
     let mbB : Mailbox := { localPart := "epa", domain := "caffe.test" }
     let mbT : Mailbox := { localPart := "das", domain := "ding.test" }
     let hdrSender : Headers :=
       { sender := some (Except.ok mbS),
         fromH := some (Except.ok { head := mbA, tail := [mbB] }),
         toH := some (Except.ok { head := mbT, tail := [] }) }
     let hdrSingle : Headers :=
       { sender := none,
         fromH := some (Except.ok { head := mbA, tail := [] }),
         toH := some (Except.ok { head := mbT, tail := [] }) }
     let hdrMulti : Headers :=
       { sender := none,
         fromH := some (Except.ok { head := mbA, tail := [mbB] }),
         toH := some (Except.ok { head := mbT, tail := [] }) }
     let hdrNoTo : Headers :=
       { sender := none,
         fromH := some (Except.ok { head := mbA, tail := [] }),
         toH := none }
     (∀ env, derive_envelop_data_from_mail conv hdrSender = Except.ok env →
        env.envFrom = some { address := "strange@caffe.test", needsSmtputf8 := false })
     ∧ (∀ env, derive_envelop_data_from_mail conv hdrSingle = Except.ok env →
        env.envFrom = some { address := "ape@caffe.test", needsSmtputf8 := false })
     ∧ derive_envelop_data_from_mail conv hdrMulti
        = Except.error MailError.multiMailboxFromWithoutSender
     ∧ ∀ env, derive_envelop_data_from_mail conv hdrNoTo ≠ Except.ok env) := by
  refine ⟨?_, ?_, ?_, ?_⟩
  · intro env hok
    exact (c2_envelope_derivation _ _).1 _ _ env rfl rfl hok
  · intro env hok
    exact (c2_envelope_derivation _ _).2.1 _ _ env rfl rfl rfl hok
  · exact (c2_envelope_derivation _ _).2.2.1 _ rfl rfl (by decide)
  · intro env
    exact (c2_envelope_derivation _ _).2.2.2 rfl env

theorem okEnvelops_nil : okEnvelops [] = [] := rfl

theorem okEnvelops_cons_error (e : MailError) (rest : List EncodeMailResult) :
    okEnvelops (Except.error e :: rest) = okEnvelops rest := rfl

theorem okEnvelops_cons_ok (env : MailEnvelop) (rest : List EncodeMailResult) :
    okEnvelops (Except.ok env :: rest) = env :: okEnvelops rest := rfl

theorem mapError_ok (a : α) (f : ε → ε2) :
    (Except.ok a : Except ε α).mapError f = Except.ok a := rfl

theorem mapError_error (e : ε) (f : ε → ε2) :
    (Except.error e : Except ε α).mapError f = Except.error (f e) := rfl

theorem sendOutcomeAt_shift (con con2 : SmtpConnection)
    (hb : con2.behavior = con.behavior) (hc : con2.sendCount = con.sendCount + 1)
    (k : Nat) : sendOutcomeAt con2 k = sendOutcomeAt con (1 + k) := by
  unfold sendOutcomeAt
  rw [hb, hc]
  have : con.sendCount + 1 + k = con.sendCount + (1 + k) := by omega
  rw [this]

theorem sendEncodedGo_ok_spec (iter : List EncodeMailResult) :
    ∀ (con : SmtpConnection) (acc : List SendMailResult) (con2 : SmtpConnection)
      (results : List SendMailResult),
    sendEncodedGo con iter acc = Except.ok (con2, results) →
    ∃ tail, results = acc ++ tail ∧ tail.length = iter.length ∧
      con2.log = con.log ++ okEnvelops iter ∧
      con2.sendCount = con.sendCount + (okEnvelops iter).length ∧
      con2.behavior = con.behavior ∧
      (∀ (i : Nat) (e : MailError), iter[i]? = some (Except.error e) →
          tail[i]? = some (Except.error (MailSendError.mail e))) ∧
      (∀ (i : Nat) (env : MailEnvelop), iter[i]? = some (Except.ok env) →
          tail[i]? = some (sendOutcomeAt con (okEnvelops (iter.take i)).length)) := by
  induction iter with
  | nil =>
    intro con acc con2 results hgo
    simp only [sendEncodedGo, Except.ok.injEq, Prod.mk.injEq] at hgo
    refine ⟨[], by simp [hgo.2.symm], by simp, ?_, ?_, ?_, ?_, ?_⟩
    · rw [← hgo.1, okEnvelops_nil, List.append_nil]
    · rw [← hgo.1, okEnvelops_nil]; simp
    · rw [← hgo.1]
    · intro i e hi; simp at hi
    · intro i env hi; simp at hi
  | cons c rest ih =>
    intro con acc con2 results hgo
    cases c with
    | error e0 =>
      simp only [sendEncodedGo] at hgo
      rcases ih con (acc ++ [Except.error (MailSendError.mail e0)]) con2 results hgo with
        ⟨tail, ht1, ht2, ht3, ht4, ht5, ht6, ht7⟩
      refine ⟨Except.error (MailSendError.mail e0) :: tail, ?_, ?_, ?_, ?_, ht5, ?_, ?_⟩
      · rw [ht1, List.append_assoc]; rfl
      · simp [ht2]
      · rw [ht3, okEnvelops_cons_error]
      · rw [ht4, okEnvelops_cons_error]
      · intro i e hi
        cases i with
        | zero => simp at hi; simp [hi]
        | succ i => simp at hi ⊢; exact ht6 i e hi
      · intro i env hi
        cases i with
        | zero => simp at hi
        | succ i =>
          simp only [List.getElem?_cons_succ] at hi ⊢
          rw [ht7 i env hi]
          simp [List.take_succ_cons, okEnvelops_cons_error]
    | ok env0 =>
      rcases hb : con.behavior con.sendCount with e0 | o
      · exfalso
        simp [sendEncodedGo, SmtpConnection.sendMail, hb] at hgo
      · have hshift : ∀ tail : List SendMailResult,
            (∀ (i : Nat) (env : MailEnvelop), rest[i]? = some (Except.ok env) →
              tail[i]? = some (sendOutcomeAt
                { con with sendCount := con.sendCount + 1, log := con.log ++ [env0] }
                (okEnvelops (rest.take i)).length)) →
            (∀ (i : Nat) (env : MailEnvelop),
              ((Except.ok env0 : EncodeMailResult) :: rest)[i]? = some (Except.ok env) →
              i ≠ 0 →
              tail[i - 1]? = some (sendOutcomeAt con
                (okEnvelops (((Except.ok env0 : EncodeMailResult) :: rest).take i)).length)) := by
          intro tail ht7 i env hi hne
          cases i with
          | zero => exact absurd rfl hne
          | succ i =>
            simp only [List.getElem?_cons_succ] at hi
            simp only [Nat.add_sub_cancel]
            rw [ht7 i env hi,
              sendOutcomeAt_shift con
                { con with sendCount := con.sendCount + 1, log := con.log ++ [env0] }
                rfl rfl]
            simp [List.take_succ_cons, okEnvelops_cons_ok]
            rw [Nat.add_comm]
        cases o with
        | none =>
          have hsm : con.sendMail env0 = Except.ok
              ({ con with sendCount := con.sendCount + 1, log := con.log ++ [env0] },
               Except.ok ()) := by
            simp [SmtpConnection.sendMail, hb]
          simp only [sendEncodedGo, hsm, mapError_ok] at hgo
          rcases ih _ (acc ++ [Except.ok ()]) con2 results hgo with
            ⟨tail, ht1, ht2, ht3, ht4, ht5, ht6, ht7⟩
          refine ⟨Except.ok () :: tail, ?_, ?_, ?_, ?_, ?_, ?_, ?_⟩
          · rw [ht1, List.append_assoc]; rfl
          · simp [ht2]
          · rw [ht3, okEnvelops_cons_ok]; simp
          · rw [ht4, okEnvelops_cons_ok]; simp; omega
          · rw [ht5]
          · intro i e hi
            cases i with
            | zero => simp at hi
            | succ i => simp at hi ⊢; exact ht6 i e hi
          · intro i env hi
            cases i with
            | zero =>
              simp only [List.getElem?_cons_zero, Option.some.injEq] at hi ⊢
              simp [sendOutcomeAt, hb, okEnvelops_nil]
            | succ i =>
              have := hshift tail ht7 (i + 1) env (by simpa using hi) (by omega)
              simpa using this
        | some r =>
          have hsm : con.sendMail env0 = Except.ok
              ({ con with sendCount := con.sendCount + 1, log := con.log ++ [env0] },
               Except.error r) := by
            simp [SmtpConnection.sendMail, hb]
          simp only [sendEncodedGo, hsm, mapError_error] at hgo
          rcases ih _ (acc ++ [Except.error (MailSendError.smtp r.2)]) con2 results hgo with
            ⟨tail, ht1, ht2, ht3, ht4, ht5, ht6, ht7⟩
          refine ⟨Except.error (MailSendError.smtp r.2) :: tail, ?_, ?_, ?_, ?_, ?_, ?_, ?_⟩
          · rw [ht1, List.append_assoc]; rfl
          · simp [ht2]
          · rw [ht3, okEnvelops_cons_ok]; simp
          · rw [ht4, okEnvelops_cons_ok]; simp; omega
          · rw [ht5]
          · intro i e hi
            cases i with
            | zero => simp at hi
            | succ i => simp at hi ⊢; exact ht6 i e hi
          · intro i env hi
            cases i with
            | zero =>
              simp only [List.getElem?_cons_zero, Option.some.injEq] at hi ⊢
              simp [sendOutcomeAt, hb, okEnvelops_nil]
            | succ i =>
              have := hshift tail ht7 (i + 1) env (by simpa using hi) (by omega)
              simpa using this

theorem sendEncodedGo_err_spec (iter : List EncodeMailResult) :
    ∀ (con : SmtpConnection) (acc : List SendMailResult) (te : TransportError)
      (results : List SendMailResult) (remaining : List EncodeMailResult),
    sendEncodedGo con iter acc = Except.error (te, results, remaining) →
    ∃ e env done, te = TransportError.io e ∧
      iter = done ++ Except.ok env :: remaining ∧
      results.length = acc.length + done.length ∧
      con.behavior (con.sendCount + (okEnvelops done).length) = Except.error e := by
  induction iter with
  | nil =>
    intro con acc te results remaining hgo
    simp [sendEncodedGo] at hgo
  | cons c rest ih =>
    intro con acc te results remaining hgo
    cases c with
    | error e0 =>
      simp only [sendEncodedGo] at hgo
      rcases ih con (acc ++ [Except.error (MailSendError.mail e0)]) te results remaining hgo
        with ⟨e, env, done, h1, h2, h3, h4⟩
      refine ⟨e, env, Except.error e0 :: done, h1, by rw [h2]; rfl, ?_, ?_⟩
      · simp at h3; simp [h3]; omega
      · rw [okEnvelops_cons_error]
        exact h4
    | ok env0 =>
      rcases hb : con.behavior con.sendCount with e1 | o
      · have hsm : con.sendMail env0 = Except.error e1 := by
          simp [SmtpConnection.sendMail, hb]
        simp only [sendEncodedGo, hsm, Except.error.injEq, Prod.mk.injEq] at hgo
        refine ⟨e1, env0, [], hgo.1.symm, by simp [hgo.2.2.symm], ?_, ?_⟩
        · rw [← hgo.2.1]; simp
        · simpa [okEnvelops_nil] using hb
      · cases o with
        | none =>
          have hsm : con.sendMail env0 = Except.ok
              ({ con with sendCount := con.sendCount + 1, log := con.log ++ [env0] },
               Except.ok ()) := by
            simp [SmtpConnection.sendMail, hb]
          simp only [sendEncodedGo, hsm, mapError_ok] at hgo
          rcases ih _ (acc ++ [Except.ok ()]) te results remaining hgo
            with ⟨e, env, done, h1, h2, h3, h4⟩
          refine ⟨e, env, Except.ok env0 :: done, h1, by rw [h2]; rfl, ?_, ?_⟩
          · simp at h3; simp [h3]; omega
          · rw [okEnvelops_cons_ok]
            simpa [Nat.add_assoc, Nat.add_comm 1 (okEnvelops done).length] using h4
        | some r =>
          have hsm : con.sendMail env0 = Except.ok
              ({ con with sendCount := con.sendCount + 1, log := con.log ++ [env0] },
               Except.error r) := by
            simp [SmtpConnection.sendMail, hb]
          simp only [sendEncodedGo, hsm, mapError_error] at hgo
          rcases ih _ (acc ++ [Except.error (MailSendError.smtp r.2)]) te results remaining hgo
            with ⟨e, env, done, h1, h2, h3, h4⟩
          refine ⟨e, env, Except.ok env0 :: done, h1, by rw [h2]; rfl, ?_, ?_⟩
          · simp at h3; simp [h3]; omega
          · rw [okEnvelops_cons_ok]
            simpa [Nat.add_assoc, Nat.add_comm 1 (okEnvelops done).length] using h4

/-- C3: in a batch sent over one connection, a request that failed encoding
becomes an error result for that request only: the connection's log and send
counter show only the successfully encoded envelopes (the bad request's bytes
never reach the connection and no send is issued for it), every request gets a
result at its own position, failed-encoding positions carry their own error,
and every other position carries the connection's response to its own send. -/
theorem c3_per_request_isolation (con : SmtpConnection) (mails : List EncodeMailResult)
    (con2 : SmtpConnection) (results : List SendMailResult)
    (h : send_encoded_mails con mails = Except.ok (con2, results)) :
    results.length = mails.length ∧
    con2.log = con.log ++ okEnvelops mails ∧
    con2.sendCount = con.sendCount + (okEnvelops mails).length ∧
    (∀ (i : Nat) (e : MailError), mails[i]? = some (Except.error e) →
        results[i]? = some (Except.error (MailSendError.mail e))) ∧
    (∀ (i : Nat) (env : MailEnvelop), mails[i]? = some (Except.ok env) →
        results[i]? = some (sendOutcomeAt con (okEnvelops (mails.take i)).length)) := by
  rcases sendEncodedGo_ok_spec mails con [] con2 results h with
    ⟨tail, ht1, ht2, ht3, ht4, _, ht6, ht7⟩
  have hr : results = tail := by simpa using ht1
  subst hr
  exact ⟨ht2, ht3, ht4, ht6, ht7⟩

/-- Witness for C3: a batch of two accepted mails around one failed encoding.
The bad mail produces exactly one mail error at its own position and the
connection log holds only the two good envelopes. -/
theorem c3_per_request_isolation_witness :
    send_encoded_mails conAcceptAll mailsW3
      = Except.ok
          ({ behavior := conAcceptAll.behavior, sendCount := 2, log := [5, 7] },
           [Except.ok (), Except.error (MailSendError.mail (MailError.otherMailError 3)),
            Except.ok ()]) ∧
    ([Except.ok (), Except.error (MailSendError.mail (MailError.otherMailError 3)),
      Except.ok ()] : List SendMailResult)[1]?
      = some (Except.error (MailSendError.mail (MailError.otherMailError 3))) ∧
    ({ behavior := conAcceptAll.behavior, sendCount := 2, log := [5, 7] }
      : SmtpConnection).log = conAcceptAll.log ++ okEnvelops mailsW3 :=
  ⟨rfl,
   (c3_per_request_isolation conAcceptAll mailsW3
      { behavior := conAcceptAll.behavior, sendCount := 2, log := [5, 7] }
      [Except.ok (), Except.error (MailSendError.mail (MailError.otherMailError 3)),
       Except.ok ()] rfl).2.2.2.1 1 (MailError.otherMailError 3) rfl,
   (c3_per_request_isolation conAcceptAll mailsW3
      { behavior := conAcceptAll.behavior, sendCount := 2, log := [5, 7] }
      [Except.ok (), Except.error (MailSendError.mail (MailError.otherMailError 3)),
       Except.ok ()] rfl).2.1⟩

/-- C4: when the k-th actual send over a batch connection fails with an I/O
error, sending stops immediately: the future errors with the transport-level
error, the results collected for the mails before the failing one, and the
iterator of the remaining unsent mails; the failing send is exactly the one
the connection oracle rejects.  On the service side an in-use send future that
errors moves the connection state straight to Terminated (no clean quit is
attempted: a quit would require a Closing state). -/
theorem c4_transport_error_stops (con : SmtpConnection) (mails : List EncodeMailResult)
    (te : TransportError) (results : List SendMailResult)
    (remaining : List EncodeMailResult)
    (h : send_encoded_mails con mails = Except.error (te, results, remaining)) :
    (∃ e env done, te = TransportError.io e ∧
        mails = done ++ Except.ok env :: remaining ∧
        results.length = done.length ∧
        con.behavior (con.sendCount + (okEnvelops done).length) = Except.error e)
  ∧ (∀ (e : MailSendError) (fut : Fut MailSendError (Connection × MailSendResult)),
        fut.delay = 0 → fut.outcome = Except.error e →
        (ConnectionState.ConnectionInUse fut).poll_state_completion
          = (ConnectionState.Terminated, PollSCResult.err (Sum.inl e))) := by
  constructor
  · rcases sendEncodedGo_err_spec mails con [] te results remaining h with
      ⟨e, env, done, h1, h2, h3, h4⟩
    exact ⟨e, env, done, h1, h2, by simpa using h3, h4⟩
  · intro e fut h0 ho
    cases fut
    simp only at h0 ho
    subst h0; subst ho
    rfl

/-- Witness for C4: the second good mail of a four-element batch hits an I/O
error; the future errors with the I/O transport error, the two results
collected before it, and the one remaining unsent mail. -/
theorem c4_transport_error_stops_witness :
    send_encoded_mails conIoOnSecond mailsW4
      = Except.error (TransportError.io 9,
          [Except.ok (), Except.error (MailSendError.mail (MailError.otherMailError 3))],
          [Except.ok 8]) ∧
    (∃ e env done, TransportError.io 9 = TransportError.io e ∧
        mailsW4 = done ++ Except.ok env :: [Except.ok 8] ∧
        ([Except.ok (), Except.error (MailSendError.mail (MailError.otherMailError 3))]
          : List SendMailResult).length = done.length ∧
        conIoOnSecond.behavior (conIoOnSecond.sendCount + (okEnvelops done).length)
          = Except.error e) :=
  ⟨rfl,
   (c4_transport_error_stops conIoOnSecond mailsW4 (TransportError.io 9)
      [Except.ok (), Except.error (MailSendError.mail (MailError.otherMailError 3))]
      [Except.ok 8] rfl).1⟩

/-- C6: a send on the connection state machine succeeds exactly when the state
is Connected (moving it to ConnectionInUse with the send future for that
connection); from every other non-poisoned state the call is rejected, the
state is unchanged and the body bytes and envelope are handed back; and the
driver only issues a send right after observing a usable completion state,
which always leaves the machine in Connected. -/
theorem c6_send_only_when_connected (body : Bytes) (envelop : EnvelopData) :
    (∀ con, (ConnectionState.Connected con).send_mail body envelop
        = (ConnectionState.ConnectionInUse (sendMailFut con body envelop),
           SendCallResult.ok))
  ∧ (∀ s : ConnectionState, s ≠ ConnectionState.Poison →
        (s.send_mail body envelop).2 = SendCallResult.ok →
        ∃ con, s = ConnectionState.Connected con)
  ∧ (ConnectionState.Idle.send_mail body envelop
        = (ConnectionState.Idle, SendCallResult.rejected body envelop))
  ∧ (∀ f, (ConnectionState.Connecting f).send_mail body envelop
        = (ConnectionState.Connecting f, SendCallResult.rejected body envelop))
  ∧ (∀ f, (ConnectionState.ConnectionInUse f).send_mail body envelop
        = (ConnectionState.ConnectionInUse f, SendCallResult.rejected body envelop))
  ∧ (∀ q t, (ConnectionState.Closing q t).send_mail body envelop
        = (ConnectionState.Closing q t, SendCallResult.rejected body envelop))
  ∧ (ConnectionState.Terminated.send_mail body envelop
        = (ConnectionState.Terminated, SendCallResult.rejected body envelop))
  ∧ (∀ (s s2 : ConnectionState) (r : Option MailSendResult), s.poll_state_completion
        = (s2, PollSCResult.ready (CompletionState.usable r)) →
        ∃ con, s2 = ConnectionState.Connected con) := by
  refine ⟨fun con => rfl, ?_, rfl, fun f => rfl, fun f => rfl, fun q t => rfl, rfl, ?_⟩
  · intro s hs hok
    cases s with
    | Connected con => exact ⟨con, rfl⟩
    | Poison => exact absurd rfl hs
    | Idle => simp [ConnectionState.send_mail] at hok
    | Connecting f => simp [ConnectionState.send_mail] at hok
    | ConnectionInUse f => simp [ConnectionState.send_mail] at hok
    | Closing q t => simp [ConnectionState.send_mail] at hok
    | Terminated => simp [ConnectionState.send_mail] at hok
  · intro s s2 r hp
    cases s with
    | Idle => simp [ConnectionState.poll_state_completion] at hp
    | Connected con =>
      simp only [ConnectionState.poll_state_completion, Prod.mk.injEq] at hp
      exact ⟨con, hp.1.symm⟩
    | Connecting f =>
      rcases hf : f.poll with ⟨f2, pr⟩
      cases pr with
      | notReady => simp [ConnectionState.poll_state_completion, hf] at hp
      | ready con =>
        simp only [ConnectionState.poll_state_completion, hf, Prod.mk.injEq] at hp
        exact ⟨con, hp.1.symm⟩
      | err e => simp [ConnectionState.poll_state_completion, hf] at hp
    | ConnectionInUse f =>
      rcases hf : f.poll with ⟨f2, pr⟩
      cases pr with
      | notReady => simp [ConnectionState.poll_state_completion, hf] at hp
      | ready p =>
        simp only [ConnectionState.poll_state_completion, hf, Prod.mk.injEq] at hp
        exact ⟨p.1, hp.1.symm⟩
      | err e => simp [ConnectionState.poll_state_completion, hf] at hp
    | Closing q t =>
      cases q with
      | zero =>
        cases t <;> simp [ConnectionState.poll_state_completion] at hp
      | succ n => simp [ConnectionState.poll_state_completion] at hp
    | Terminated => simp [ConnectionState.poll_state_completion] at hp
    | Poison => simp [ConnectionState.poll_state_completion] at hp

/-- Witness for C6 at concrete states: send from Connected succeeds; send from
Idle is rejected with the bytes and envelope returned; a usable poll result
leaves the machine Connected. -/
theorem c6_send_only_when_connected_witness :
    ((ConnectionState.Connected svcConn).send_mail [1, 2] envW
        = (ConnectionState.ConnectionInUse (sendMailFut svcConn [1, 2] envW),
           SendCallResult.ok))
    ∧ (ConnectionState.Idle.send_mail [1, 2] envW
        = (ConnectionState.Idle, SendCallResult.rejected [1, 2] envW))
    ∧ (ConnectionState.Idle ≠ ConnectionState.Poison)
    ∧ ∃ con, ConnectionState.Connected svcConn = ConnectionState.Connected con :=
  ⟨(c6_send_only_when_connected [1, 2] envW).1 svcConn,
   (c6_send_only_when_connected [1, 2] envW).2.2.1,
   by simp,
   (c6_send_only_when_connected [1, 2] envW).2.2.2.2.2.2.2
     (ConnectionState.Connected svcConn) (ConnectionState.Connected svcConn) none rfl⟩

theorem applyConnOp_terminated (op : ConnOp) :
    applyConnOp ConnectionState.Terminated op = ConnectionState.Terminated := by
  cases op <;> rfl

/-- C7: Terminated is absorbing: after the connection state machine reaches
Terminated, any sequence of poll_state_completion, send_mail, close_current
and terminate calls leaves it Terminated, and a driver loop iteration run on a
service whose connection is Terminated also leaves it Terminated (so the
machine never re-enters Connecting or Connected). -/
theorem c7_terminated_is_final :
    (∀ ops : List ConnOp,
        ops.foldl applyConnOp ConnectionState.Terminated = ConnectionState.Terminated)
  ∧ (∀ (cf : Fut ConnErr Connection) (s : MailServiceState),
        s.connection = ConnectionState.Terminated →
        ((serviceStep cf s).1.connection = ConnectionState.Terminated ∧
         (serviceStep cf s).2 = StepResult.stopped)) := by
  constructor
  · intro ops
    induction ops with
    | nil => rfl
    | cons op ops ih => rw [List.foldl_cons, applyConnOp_terminated]; exact ih
  · intro cf s hc
    unfold serviceStep
    rw [hc]
    exact ⟨rfl, rfl⟩

/-- Witness for C7: a concrete operation sequence (send, poll, close, poll,
terminate) starting at Terminated stays Terminated, and a driver iteration on
a Terminated service state reports stopped with the connection untouched. -/
theorem c7_terminated_is_final_witness :
    ([ConnOp.sendMailOp [1] envW, ConnOp.pollSC, ConnOp.closeCurrentOp, ConnOp.pollSC,
      ConnOp.terminateOp].foldl applyConnOp ConnectionState.Terminated
        = ConnectionState.Terminated)
    ∧ ({ drainState with connection := ConnectionState.Terminated }.connection
        = ConnectionState.Terminated)
    ∧ (serviceStep svcConnectFut
        { drainState with connection := ConnectionState.Terminated }).1.connection
        = ConnectionState.Terminated :=
  ⟨c7_terminated_is_final.1 _,
   rfl,
   (c7_terminated_is_final.2 svcConnectFut
      { drainState with connection := ConnectionState.Terminated } rfl).1⟩

/-- C8: while a send is in flight the state machine rejects close and
terminate with the busy error and performs no transition: the same in-flight
future is still there, a poll after the rejected call behaves exactly as
before it, and a send that was about to complete still completes into
Connected with its result. -/
theorem c8_busy_while_in_use (fut : Fut MailSendError (Connection × MailSendResult)) :
    ((ConnectionState.ConnectionInUse fut).close_current
        = (ConnectionState.ConnectionInUse fut, CloseResult.busy))
  ∧ ((ConnectionState.ConnectionInUse fut).terminate
        = (ConnectionState.ConnectionInUse fut, CloseResult.busy))
  ∧ (((ConnectionState.ConnectionInUse fut).close_current.1).poll_state_completion
        = (ConnectionState.ConnectionInUse fut).poll_state_completion)
  ∧ (∀ con r, fut.delay = 0 → fut.outcome = Except.ok (con, r) →
        ((ConnectionState.ConnectionInUse fut).close_current.1).poll_state_completion
          = (ConnectionState.Connected con,
             PollSCResult.ready (CompletionState.usable (some r)))) := by
  refine ⟨rfl, rfl, rfl, ?_⟩
  intro con r h0 ho
  cases fut
  simp only at h0 ho
  subst h0; subst ho
  rfl

/-- Witness for C8 with a concrete in-flight send future that is about to
succeed: close is rejected as busy and the send still completes. -/
theorem c8_busy_while_in_use_witness :
    (ConnectionState.ConnectionInUse futOkSend).close_current
      = (ConnectionState.ConnectionInUse futOkSend, CloseResult.busy)
    ∧ ConnectionState.poll_state_completion
        ((ConnectionState.ConnectionInUse futOkSend).close_current.1)
      = (ConnectionState.Connected svcConn,
         PollSCResult.ready (CompletionState.usable (some (Except.ok MailResponse.mk)))) :=
  ⟨(c8_busy_while_in_use futOkSend).1,
   (c8_busy_while_in_use futOkSend).2.2.2 svcConn (Except.ok MailResponse.mk) rfl rfl⟩

/-- C10: termination intent on a Closing connection is monotone: a plain
close_current never downgrades the is_termination flag, terminate upgrades it
to true from any Closing state, and a Closing state whose flag is true only
ever polls to NotReady (keeping the flag) or completes into Terminated, never
back into Idle. -/
theorem c10_termination_monotone :
    (∀ q t, (ConnectionState.Closing q t).close_current
        = (ConnectionState.Closing q t, CloseResult.ok))
  ∧ (∀ q t, (ConnectionState.Closing q t).terminate
        = (ConnectionState.Closing q true, CloseResult.ok))
  ∧ ((ConnectionState.Closing 0 true).poll_state_completion
        = (ConnectionState.Terminated, PollSCResult.ready CompletionState.terminated))
  ∧ (∀ n, (ConnectionState.Closing (n + 1) true).poll_state_completion
        = (ConnectionState.Closing n true, PollSCResult.notReady))
  ∧ (∀ q s2 pr, (ConnectionState.Closing q true).poll_state_completion = (s2, pr) →
        s2 ≠ ConnectionState.Idle) := by
  refine ⟨?_, fun q t => rfl, rfl, fun n => rfl, ?_⟩
  · intro q t
    cases t <;> rfl
  · intro q s2 pr hp
    cases q with
    | zero =>
      simp only [ConnectionState.poll_state_completion, Prod.mk.injEq, if_true] at hp
      rw [← hp.1]
      simp
    | succ n =>
      simp only [ConnectionState.poll_state_completion, Prod.mk.injEq] at hp
      rw [← hp.1]
      simp

/-- Witness for C10 at a concrete Closing state: a plain close keeps the
termination flag, terminate upgrades it, and a completed terminating quit
lands in Terminated, not Idle. -/
theorem c10_termination_monotone_witness :
    (ConnectionState.Closing 2 true).close_current
      = (ConnectionState.Closing 2 true, CloseResult.ok)
    ∧ (ConnectionState.Closing 2 false).terminate
      = (ConnectionState.Closing 2 true, CloseResult.ok)
    ∧ (ConnectionState.Closing 0 true).poll_state_completion
      = (ConnectionState.Terminated, PollSCResult.ready CompletionState.terminated)
    ∧ ConnectionState.Terminated ≠ ConnectionState.Idle :=
  ⟨c10_termination_monotone.1 2 true,
   c10_termination_monotone.2.1 2 false,
   c10_termination_monotone.2.2.1,
   c10_termination_monotone.2.2.2.2 0 ConnectionState.Terminated
     (PollSCResult.ready CompletionState.terminated) rfl⟩

theorem startStoppingNow_state (s : MailServiceState) :
    (startStoppingNow s).1
      = { s with stopFlag := true, connection := s.connection.terminate.1 } := rfl

theorem ServiceInv_of_count_eq (s2 s : MailServiceState)
    (hn : s2.nextId = s.nextId)
    (hc : ∀ id, (trackedIds s2).count id = (trackedIds s).count id)
    (h : ServiceInv s) : ServiceInv s2 := by
  intro id
  rw [hc id, hn]
  exact h id

theorem inv_startStoppingNow (s : MailServiceState) (h : ServiceInv s) :
    ServiceInv (startStoppingNow s).1 := by
  rw [startStoppingNow_state]
  exact h

theorem inv_pollNextRequest (s : MailServiceState) (h : ServiceInv s) :
    ServiceInv (pollNextRequest s).1 := by
  rcases hq : s.rxQueue with _ | ⟨⟨encResult, reqTx⟩, rest⟩
  · unfold pollNextRequest
    rw [hq]
    cases hcl : s.rxClosed with
    | true =>
      simp only [if_true]
      exact inv_startStoppingNow s h
    | false =>
      simp only [Bool.false_eq_true, if_false]
      exact h
  · cases encResult with
    | ok be =>
      obtain ⟨body, envelop⟩ := be
      rcases hsm : s.connection.send_mail body envelop with ⟨c2, cr⟩
      cases cr with
      | ok =>
        have hres : (pollNextRequest s).1
            = { s with rxQueue := rest, connection := c2,
                       slotWrites := s.slotWrites ++ dropPendingWrites s,
                       tx_of_pending := some reqTx } := by
          simp only [pollNextRequest, hq, hsm]
          rfl
        rw [hres]
        refine ServiceInv_of_count_eq _ s rfl ?_ h
        intro id
        rcases hp : s.tx_of_pending with _ | p
        · simp [trackedIds, ownedIds, idsOf, dropPendingWrites, hq, hp,
            List.count_append, List.count_cons]
        · simp [trackedIds, ownedIds, idsOf, dropPendingWrites, hq, hp,
            List.count_append, List.count_cons]
          omega
      | rejected b e =>
        have hres : (pollNextRequest s).1
            = { s with rxQueue := rest, connection := c2,
                       slotWrites := s.slotWrites
                         ++ [(reqTx, Except.error MailSendError.canceledByDriver)] } := by
          simp only [pollNextRequest, hq, hsm]
        rw [hres]
        refine ServiceInv_of_count_eq _ s rfl ?_ h
        intro id
        simp [trackedIds, ownedIds, idsOf, hq, List.count_append, List.count_cons]
      | panicked =>
        have hres : (pollNextRequest s).1
            = { s with rxQueue := rest, connection := c2,
                       slotWrites := s.slotWrites
                         ++ [(reqTx, Except.error MailSendError.canceledByDriver)] } := by
          simp only [pollNextRequest, hq, hsm]
        rw [hres]
        refine ServiceInv_of_count_eq _ s rfl ?_ h
        intro id
        simp [trackedIds, ownedIds, idsOf, hq, List.count_append, List.count_cons]
    | error err =>
      have hres : (pollNextRequest s).1
          = { s with rxQueue := rest,
                     slotWrites := s.slotWrites ++ [(reqTx, Except.error err)] } := by
        simp only [pollNextRequest, hq]
      rw [hres]
      refine ServiceInv_of_count_eq _ s rfl ?_ h
      intro id
      simp [trackedIds, ownedIds, idsOf, hq, List.count_append, List.count_cons]

theorem inv_serviceStepCore (cf : Fut ConnErr Connection) (s : MailServiceState)
    (pr : PollSCResult) (h : ServiceInv s) : ServiceInv (serviceStepCore cf s pr).1 := by
  cases pr with
  | notReady => exact h
  | panicked => exact h
  | err e => exact h
  | ready c =>
    cases c with
    | terminated => exact h
    | usable optResult =>
      cases optResult with
      | none => exact inv_pollNextRequest s h
      | some mailResult =>
        rcases hp : s.tx_of_pending with _ | txId
        · have hres : (serviceStepCore cf s
              (PollSCResult.ready (CompletionState.usable (some mailResult)))).1 = s := by
            simp only [serviceStepCore, hp]
          rw [hres]
          exact h
        · have hres : (serviceStepCore cf s
              (PollSCResult.ready (CompletionState.usable (some mailResult)))).1
              = (pollNextRequest
                  { s with tx_of_pending := none,
                           slotWrites := s.slotWrites ++ [(txId, mailResult)] }).1 := by
            simp only [serviceStepCore, hp]
          rw [hres]
          apply inv_pollNextRequest
          refine ServiceInv_of_count_eq _ s rfl ?_ h
          intro id
          simp [trackedIds, ownedIds, idsOf, hp, List.count_append, List.count_cons]
    | idle =>
      rcases hq : s.rxQueue with _ | ⟨it, rest⟩
      · cases hcl : s.rxClosed with
        | true =>
          have hres : (serviceStepCore cf s (PollSCResult.ready CompletionState.idle)).1
              = (startStoppingNow s).1 := by
            simp only [serviceStepCore, hq, hcl, if_true]
          rw [hres]
          exact inv_startStoppingNow s h
        | false =>
          have hres : (serviceStepCore cf s (PollSCResult.ready CompletionState.idle)).1
              = s := by
            simp only [serviceStepCore, hq, hcl, Bool.false_eq_true, if_false]
          rw [hres]
          exact h
      · have hres : (serviceStepCore cf s (PollSCResult.ready CompletionState.idle)).1
            = { s with connection := (s.connection.change_into_connecting cf).1 } := by
          simp only [serviceStepCore, hq]
        rw [hres]
        exact h

theorem inv_serviceStep (cf : Fut ConnErr Connection) (s : MailServiceState)
    (h : ServiceInv s) : ServiceInv (serviceStep cf s).1 :=
  inv_serviceStepCore cf _ _ h

theorem trackedIds_submit_count (s : MailServiceState) (r : MailEncodingResult)
    (id : SlotId) :
    (trackedIds
        { s with
            rxQueue := s.rxQueue ++ [(r, s.nextId)],
            nextId := s.nextId + 1 }).count id
      = (trackedIds s).count id + if s.nextId = id then 1 else 0 := by
  simp [trackedIds, ownedIds, idsOf, List.count_append, List.count_cons]
  omega

theorem inv_applyEvent (s : MailServiceState) (e : ServiceEvent) (h : ServiceInv s) :
    ServiceInv (applyEvent s e) := by
  cases e with
  | closeHandles => exact h
  | step cf => exact inv_serviceStep cf s h
  | submit r =>
    by_cases hcl : s.rxClosed = true
    · have happ : applyEvent s (ServiceEvent.submit r) = s := by
        simp [applyEvent, hcl]
      rw [happ]
      exact h
    · have hcl2 : s.rxClosed = false := by
        cases hb : s.rxClosed
        · rfl
        · exact absurd hb hcl
      have happ : applyEvent s (ServiceEvent.submit r)
          = { s with
                rxQueue := s.rxQueue ++ [(r, s.nextId)],
                nextId := s.nextId + 1 } := by
        simp [applyEvent, hcl2]
      rw [happ]
      intro id
      have hs := h id
      have hcount := trackedIds_submit_count s r id
      show (trackedIds _).count id = if id < s.nextId + 1 then 1 else 0
      rw [hcount, hs]
      by_cases hid : id = s.nextId
      · subst hid
        simp
      · have h3 : ¬ s.nextId = id := fun hx => hid hx.symm
        have h2 : (id < s.nextId + 1) ↔ (id < s.nextId) := by
          constructor
          · intro hlt
            rcases Nat.lt_succ_iff_lt_or_eq.mp hlt with h4 | h4
            · exact h4
            · exact absurd h4 hid
          · intro hlt
            exact Nat.lt_succ_of_lt hlt
        simp [h3, h2]

theorem inv_initService : ServiceInv initService := by
  intro id
  simp [initService, trackedIds, ownedIds, idsOf]

theorem inv_runService (evs : List ServiceEvent) : ServiceInv (runService evs) := by
  have hgen : ∀ s : MailServiceState, ServiceInv s →
      ServiceInv (evs.foldl applyEvent s) := by
    induction evs with
    | nil => intro s h; exact h
    | cons e evs ih =>
      intro s h
      rw [List.foldl_cons]
      exact ih _ (inv_applyEvent s e h)
  exact hgen initService inv_initService

theorem idsOf_finalize (s : MailServiceState) :
    idsOf (finalize s) = trackedIds s := by
  unfold finalize trackedIds ownedIds idsOf
  rcases hp : s.tx_of_pending with _ | p <;>
    simp [List.map_append, List.map_map, hp]

/-- C1: over every run of the service (any interleaving of submissions, the
handles closing, and driver loop iterations), the reply-slot write log never
contains two writes to the same slot (each request's oneshot reply channel is
written at most once); and after the service is dropped — which cancels every
reply sender it still owns — every submitted request's slot carries exactly
one outcome: never zero, never more than one. -/
theorem c1_exactly_one_outcome (evs : List ServiceEvent) :
    (idsOf (runService evs).slotWrites).Nodup ∧
    ∀ id : SlotId, id < (runService evs).nextId →
      (idsOf (finalize (runService evs))).count id = 1 := by
  have hinv := inv_runService evs
  constructor
  · rw [List.nodup_iff_count_le_one]
    intro id
    have h := hinv id
    have hle : (idsOf (runService evs).slotWrites).count id
        ≤ (trackedIds (runService evs)).count id := by
      unfold trackedIds
      rw [List.count_append]
      omega
    rw [h] at hle
    by_cases hlt : id < (runService evs).nextId
    · simpa [hlt] using hle
    · have h0 : (idsOf (runService evs).slotWrites).count id = 0 := by
        simpa [hlt] using hle
      omega
  · intro id hid
    rw [idsOf_finalize, hinv id, if_pos hid]

/-- Witness for C1: the concrete run evsW (one failed-encoding submission, the
handles dropping, three driver iterations) writes slot 0 exactly once, and the
write log has no duplicate ids. -/
theorem c1_exactly_one_outcome_witness :
    (idsOf (runService evsW).slotWrites).Nodup ∧
    0 < (runService evsW).nextId ∧
    (idsOf (finalize (runService evsW))).count 0 = 1 :=
  ⟨(c1_exactly_one_outcome evsW).1, by decide,
   (c1_exactly_one_outcome evsW).2 0 (by decide)⟩

/-- Counterexample for C9 as stated: at the concrete drain situation —
connection Idle, encoded queue empty and closed, and no stop ever requested
(stop flag still false) — the driver does not begin a non-terminating close:
the single driver iteration moves the connection straight to Terminated (a
terminating close) and sets the stop flag, although no stop was explicitly
requested. -/
theorem c9_counterexample :
    drainState.stopFlag = false ∧
    (serviceStep svcConnectFut drainState).1.connection = ConnectionState.Terminated ∧
    (serviceStep svcConnectFut drainState).1.stopFlag = true ∧
    (∀ q : Nat, (serviceStep svcConnectFut drainState).1.connection
        ≠ ConnectionState.Closing q false) ∧
    (serviceStep svcConnectFut drainState).1.connection ≠ ConnectionState.Idle := by
  refine ⟨rfl, rfl, rfl, ?_, ?_⟩
  · intro q h
    exact ConnectionState.noConfusion h
  · intro h
    exact ConnectionState.noConfusion h

/-- C9 (amended): when the driver finds the connection idle and the
non-consuming peek shows no pending work on a closed queue, it marks the stop
flag and begins a terminating close — from an idle connection this moves
straight to Terminated — and the next iteration stops; if the queue is empty
but not yet closed it just waits; if the peek shows pending work it begins
connecting; and once Terminated every iteration reports stopped (the loop ends
the first time it observes Terminated). -/
theorem c9_idle_drain_amended :
    (∀ (cf : Fut ConnErr Connection) (s : MailServiceState),
        s.connection = ConnectionState.Idle → s.rxQueue = [] → s.rxClosed = true →
        serviceStep cf s
          = ({ s with stopFlag := true, connection := ConnectionState.Terminated },
             StepResult.looped))
  ∧ (∀ (cf : Fut ConnErr Connection) (s : MailServiceState)
        (it : MailEncodingResult × SlotId) (rest : List (MailEncodingResult × SlotId)),
        s.connection = ConnectionState.Idle → s.rxQueue = it :: rest →
        serviceStep cf s
          = ({ s with connection := ConnectionState.Connecting cf }, StepResult.looped))
  ∧ (∀ (cf : Fut ConnErr Connection) (s : MailServiceState),
        s.connection = ConnectionState.Idle → s.rxQueue = [] → s.rxClosed = false →
        serviceStep cf s = (s, StepResult.notReady))
  ∧ (∀ (cf : Fut ConnErr Connection) (s : MailServiceState),
        s.connection = ConnectionState.Terminated →
        serviceStep cf s = ({ s with stopFlag := true }, StepResult.stopped)) := by
  refine ⟨?_, ?_, ?_, ?_⟩
  · intro cf s h1 h2 h3
    obtain ⟨q, cl, conn, pending, flag, writes, nid⟩ := s
    simp only at h1 h2 h3
    subst h1; subst h2; subst h3
    rfl
  · intro cf s it rest h1 h2
    obtain ⟨q, cl, conn, pending, flag, writes, nid⟩ := s
    simp only at h1 h2
    subst h1; subst h2
    rfl
  · intro cf s h1 h2 h3
    obtain ⟨q, cl, conn, pending, flag, writes, nid⟩ := s
    simp only at h1 h2 h3
    subst h1; subst h2; subst h3
    rfl
  · intro cf s h1
    obtain ⟨q, cl, conn, pending, flag, writes, nid⟩ := s
    simp only at h1
    subst h1
    rfl

/-- Witness for the amended C9 at the concrete drain state. -/
theorem c9_idle_drain_amended_witness :
    drainState.connection = ConnectionState.Idle ∧ drainState.rxQueue = [] ∧
    drainState.rxClosed = true ∧
    serviceStep svcConnectFut drainState
      = ({ drainState with stopFlag := true, connection := ConnectionState.Terminated },
         StepResult.looped) :=
  ⟨rfl, rfl, rfl, c9_idle_drain_amended.1 svcConnectFut drainState rfl rfl rfl⟩
